import Mathlib

/-!
Verification of the AureRPC stack (repository `7days-go`): a shallow embedding
of the claim-relevant parts of the Go source, followed by theorems settling
each claim.

Conventions of the embedding:
* Go `map[K]V` is modelled as a function `K → Option V` (client pending table)
  or as an association list when iteration matters (registry service table).
* Times and durations (`time.Time`, `time.Duration`) are modelled as `Int`
  (`time.Since(start) = now - start`).
* Body / reply values carried by the codec are modelled as `Int`.
* Fallible operations return `Except`/`Option`; the results of external I/O
  (the HTTP GET of `Refresh`, `codec.Close`) are passed in as explicit
  arguments, so the state transition of the Go function itself stays pure.
-/

namespace AureRpc

/-! ## Client connection state (src/aurerpc/client: `Client`, `Call`) -/

/-- Per-message envelope (`codec.Header`): service method, sequence, error string. -/
structure Header where
  serviceMethod : String
  seq : Nat
  error : String
deriving DecidableEq, Repr

/-- One client-side invocation record (`Call`): assigned sequence, method name,
the value held by the caller's reply container, the error slot, and whether the
completion signal (`call.done()`) has fired. -/
structure PendingCall where
  seq : Nat
  serviceMethod : String
  reply : Int
  error : Option String
  doneSignaled : Bool
deriving DecidableEq, Repr

/-- The `ErrShutdown` sentinel error. It is referenced by `Close` and
`registerCall` in `src/aurerpc/client`; its defining declaration lives in a file
not present under `src/`, so it is modelled as an abstract sentinel
constructor (spec §7: a sentinel error for calls on a closed/shutdown client). -/
inductive ClientErr where
  | errShutdown
deriving DecidableEq, Repr

/-- Mutable state of a `Client` guarded by `client.mu`: next sequence number,
pending-call table keyed by sequence (a Go map, modelled as a function with
`none` for absent keys), and the `closing` / `shutdown` flags. -/
structure ClientState where
  seq : Nat
  pending : Nat → Option PendingCall
  closing : Bool
  shutdown : Bool

/-- `newClientCodec`: the client starts with `seq = 1` (0 means invalid call),
an empty pending table, and both flags clear. -/
def newClientCodecState : ClientState :=
  { seq := 1, pending := fun _ => none, closing := false, shutdown := false }

/-- `registerCall`: refuse with `ErrShutdown` if closing or shut down; otherwise
assign the current counter value to the call (`call.Seq = client.seq`), insert
it into the pending table, increment the counter, and return the assigned
sequence. -/
def registerCall (st : ClientState) (call : PendingCall) :
    ClientState × Except ClientErr Nat :=
  if st.closing || st.shutdown then
    (st, Except.error ClientErr.errShutdown)
  else
    let call2 := { call with seq := st.seq }
    ({ st with
        pending := fun k => if k = call2.seq then some call2 else st.pending k,
        seq := st.seq + 1 },
     Except.ok call2.seq)

/-- `removeCall`: look up the pending call for `seq` and delete the entry. -/
def removeCall (st : ClientState) (seq : Nat) : ClientState × Option PendingCall :=
  ({ st with pending := fun k => if k = seq then none else st.pending k },
   st.pending seq)

/-- What one iteration of the receive loop did with the response:
`discarded` is the `call == nil` case (body read into the null sink,
`ReadBody(nil)`); `errored` records the header error into the call and signals
done; `completed` decodes the body into the call's reply and signals done. -/
inductive ReceiveOutcome where
  | discarded
  | errored (call : PendingCall)
  | completed (call : PendingCall)
deriving DecidableEq, Repr

/-- One iteration of `receive`: remove the pending call matching the header's
sequence, then branch exactly as the `switch` in the source does. -/
def receiveStep (st : ClientState) (h : Header) (body : Int) :
    ClientState × ReceiveOutcome :=
  let r := removeCall st h.seq
  match r.2 with
  | none => (r.1, ReceiveOutcome.discarded)
  | some call =>
      if h.error ≠ "" then
        (r.1, ReceiveOutcome.errored { call with error := some h.error, doneSignaled := true })
      else
        (r.1, ReceiveOutcome.completed { call with reply := body, doneSignaled := true })

/-- Whether the receive-loop outcome wrote into the caller's reply container
(only the success case `ReadBody(call.Reply)` does). -/
def outcomeWritesReply : ReceiveOutcome → Bool
  | ReceiveOutcome.completed _ => true
  | _ => false

/-- The error message `Call` builds when the caller's context fires:
`"rpc client: call failed: " + ctx.Err().Error()`. -/
def callFailedMessage (ctxReason : String) : String :=
  "rpc client: call failed: " ++ ctxReason

/-- The `<-ctx.Done()` branch of `Call`: remove the pending entry for the
call's sequence and return the context-derived error message. -/
def callOnCtxDone (st : ClientState) (callSeq : Nat) (ctxReason : String) :
    ClientState × String :=
  ((removeCall st callSeq).1, callFailedMessage ctxReason)

/-- What `Close` returned: the `ErrShutdown` sentinel, or the result of
`client.cc.Close()` passed through verbatim. -/
inductive CloseReturn where
  | shutdownSentinel
  | codecResult (err : Option String)
deriving DecidableEq, Repr

/-- `Close`: if already closing return `ErrShutdown`; otherwise set `closing`
and return the codec's close result. The third component records whether
`client.cc.Close()` was invoked. -/
def clientClose (st : ClientState) (ccCloseErr : Option String) :
    ClientState × CloseReturn × Bool :=
  if st.closing then
    (st, CloseReturn.shutdownSentinel, false)
  else
    ({ st with closing := true }, CloseReturn.codecResult ccCloseErr, true)

/-- Run a sequence of `registerCall`s, collecting each result in order. -/
def runRegisters : ClientState → List PendingCall → ClientState × List (Except ClientErr Nat)
  | st, [] => (st, [])
  | st, c :: cs =>
      let r := registerCall st c
      let rest := runRegisters r.1 cs
      (rest.1, r.2 :: rest.2)

/-! ## XClient.Broadcast (src/aurerpc/client/xclient.go)

Each Broadcast goroutine allocates `clonedReply` as a fresh zero value of the
reply's element type (`reflect.New(...)`), then calls
`xc.call(ctx, rpcAddr, serviceMethod, args, reply)` — passing the caller's
`reply`, not the clone — and, on success, copies `clonedReply`'s element over
the caller's reply under the mutex.  The mutex serializes the post-call
updates, so a run is modelled as a fold over the branch results in completion
order; each branch result is the outcome of the per-address `Client.Call`
(`Except.ok serverReply` decodes `serverReply` into the slot that was passed). -/

/-- The update one Broadcast goroutine performs once its `xc.call` returns.
State is `(e, replyCell)`: the shared first-error slot and the value held by
the caller's (non-nil) reply container.  `zero` is the zero value of the reply
type, which is what `reflect.New` leaves in the never-populated clone. -/
def broadcastBranch {α : Type} (zero : α) (st : Option String × α)
    (branch : Except String α) : Option String × α :=
  match branch with
  | Except.error err =>
      -- `if err != nil && e == nil { e = err; cancel() }`; the failed call
      -- did not decode a body, so the reply cell is untouched.
      (if st.1 = none then some err else st.1, st.2)
  | Except.ok serverReply =>
      -- `xc.call(ctx, rpcAddr, serviceMethod, args, reply)` succeeded: the
      -- response body was decoded into the caller's reply slot…
      let afterCall : Option String × α := (st.1, serverReply)
      -- …then `reflect.ValueOf(reply).Elem().Set(reflect.ValueOf(clonedReply).Elem())`
      -- copies the clone — still the zero value — over it.
      (afterCall.1, zero)

/-- `Broadcast` with a non-nil reply container: fold the per-branch updates in
completion order, starting from no error and the reply container's initial
value; `Broadcast` returns the first component, the caller observes the
second. -/
def broadcastRun {α : Type} (zero : α) (initReply : α)
    (branches : List (Except String α)) : Option String × α :=
  branches.foldl (broadcastBranch zero) (none, initReply)

/-! ## Server dispatch with handle-timeout (src/unnamed/part_001 `handleRequest`) -/

/-- Capacity of the `called` channel in `handleRequest`: `make(chan struct{})`
is unbuffered. -/
def calledChanCap : Nat := 0

/-- Capacity of the `sent` channel in `handleRequest`: `make(chan struct{})`
is unbuffered. -/
def sentChanCap : Nat := 0

/-- A Go channel send on which no receiver will ever arrive completes iff the
buffer has room; on an unbuffered channel it blocks forever. -/
def sendCompletesUnreceived (cap : Nat) : Bool := decide (0 < cap)

/-- The `select` in `handleRequest` (active when `timeout ≠ 0`) takes the
`time.After` branch exactly when the handler's duration exceeds the timeout. -/
def timerBranchTaken (timeout handlerDuration : Nat) : Bool :=
  timeout ≠ 0 && timeout < handlerDuration

/-- Whether the dispatch goroutine spawned by `handleRequest` terminates.
If `timeout == 0`, the main flow receives from `called` then `sent`, so both
sends pair up.  If the `called` branch of the select wins, the main flow then
receives from `sent`.  If the timer branch wins, `handleRequest` sends the
timeout error response and returns: no receive on `called` or `sent` ever
happens again, so the goroutine's `called <- struct{}{}` (and then
`sent <- struct{}{}`) completes only if the channels are buffered. -/
def dispatchTaskTerminates (timeout handlerDuration : Nat) : Bool :=
  if timeout = 0 then
    true
  else if timerBranchTaken timeout handlerDuration then
    sendCompletesUnreceived calledChanCap && sendCompletesUnreceived sentChanCap
  else
    true

/-! ## Reflective service registration (src/unnamed/part_000 `registerMethods`) -/

/-- The facts about a `reflect.Type` that `registerMethods` consults: the
type's name, its package path, and whether its kind is pointer. -/
structure GoType where
  name : String
  pkgPath : String
  isPointer : Bool
deriving DecidableEq, Repr

/-- `ast.IsExported`: the name starts with an upper-case letter. -/
def isExported (name : String) : Bool :=
  match name.data with
  | [] => false
  | c :: _ => c.isUpper

/-- `isExportedOrBuiltinType`: exported name, or empty package path. -/
def isExportedOrBuiltinType (t : GoType) : Bool :=
  isExported t.name || t.pkgPath = ""

/-- The facts about a `reflect.Method` that `registerMethods` consults:
name, number of inputs (receiver included), number of outputs, whether the
single output is the `error` type, and the argument / reply types. -/
structure GoMethod where
  name : String
  numIn : Nat
  numOut : Nat
  outIsError : Bool
  argType : GoType
  replyType : GoType
deriving DecidableEq, Repr

/-- The filter applied by the loop body of `registerMethods` (the `continue`
conditions, conjoined): `NumIn() == 3 && NumOut() == 1`, the single result is
the `error` type, and both `In(1)` and `In(2)` are exported or built-in. -/
def methodEligible (m : GoMethod) : Bool :=
  m.numIn = 3 && m.numOut = 1 && m.outIsError
    && isExportedOrBuiltinType m.argType && isExportedOrBuiltinType m.replyType

/-- Insert into `s.method` (a Go map keyed by method name): overwrite the
entry for the key if present, append otherwise. -/
def methodMapInsert (acc : List (String × GoMethod)) (k : String) (v : GoMethod) :
    List (String × GoMethod) :=
  if acc.any (fun p => p.1 = k) then
    acc.map (fun p => if p.1 = k then (k, v) else p)
  else
    acc ++ [(k, v)]

/-- The loop of `registerMethods` over the receiver's method set, building
`s.method`. -/
def registerMethodsAux (acc : List (String × GoMethod)) :
    List GoMethod → List (String × GoMethod)
  | [] => acc
  | m :: rest =>
      registerMethodsAux
        (if methodEligible m then methodMapInsert acc m.name m else acc) rest

/-- `registerMethods`: the method map retained for a receiver whose method set
is `ms`. -/
def registerMethods (ms : List GoMethod) : List (String × GoMethod) :=
  registerMethodsAux [] ms

/-- The eligibility shape exactly as the claim states it: the spec's
eligibility conditions (§3) plus "a pointer-like reply type".  Declared from
the claim's words, to be compared with what `registerMethods` actually
retains. -/
def claimedMethodShape (m : GoMethod) : Bool :=
  m.numIn = 3 && m.numOut = 1 && m.outIsError
    && isExportedOrBuiltinType m.argType && isExportedOrBuiltinType m.replyType
    && m.replyType.isPointer

/-! ## Discovery (src/aurerpc/discovery/discovery.go) -/

/-- Selection modes (`RandomSelect`, `RoundRobinSelect`). -/
inductive SelectMode where
  | randomSelect
  | roundRobinSelect
deriving DecidableEq, Repr

/-- `MultiServerDiscovery`: the ordered server list and the round-robin
cursor.  The random source `r` is modelled by passing each drawn value to
`Get` explicitly. -/
structure MultiServerDiscovery where
  servers : List String
  index : Nat
deriving DecidableEq, Repr

/-- `Get`: fail on an empty set; `RandomSelect` returns the element at the
drawn position `r.Intn(n)` (modelled as `randDraw % n`); `RoundRobinSelect`
returns `servers[index % n]` and advances the cursor to `(index + 1) % n`. -/
def msdGet (d : MultiServerDiscovery) (mode : SelectMode) (randDraw : Nat) :
    Except String (String × MultiServerDiscovery) :=
  if h : d.servers.length = 0 then
    Except.error "rpc discovery: no available servers"
  else
    match mode with
    | SelectMode.randomSelect =>
        Except.ok
          (d.servers.get ⟨randDraw % d.servers.length,
              Nat.mod_lt _ (Nat.pos_of_ne_zero h)⟩, d)
    | SelectMode.roundRobinSelect =>
        Except.ok
          (d.servers.get ⟨d.index % d.servers.length,
              Nat.mod_lt _ (Nat.pos_of_ne_zero h)⟩,
           { d with index := (d.index + 1) % d.servers.length })

/-- `k` consecutive `Get(RoundRobinSelect)` calls with no `Update` in between,
collecting the returned addresses (on the empty set the run stops). -/
def rrRun : MultiServerDiscovery → Nat → List String × MultiServerDiscovery
  | d, 0 => ([], d)
  | d, k + 1 =>
      match msdGet d SelectMode.roundRobinSelect 0 with
      | Except.error _ => ([], d)
      | Except.ok sd =>
          let rest := rrRun sd.2 k
          (sd.1 :: rest.1, rest.2)

/-! ## Registry-backed discovery (src/aurerpc/discovery/discovery_registry.go) -/

/-- `RegistryDiscovery`: the embedded `MultiServerDiscovery`'s fields, the
registry address, the TTL (`timeout`), and `lastUpdate`. -/
structure RegistryDiscovery where
  servers : List String
  index : Nat
  registry : String
  timeout : Int
  lastUpdate : Int
deriving DecidableEq, Repr

/-- Parsing of the `X-Aurerpc-Servers` response header in `Refresh`:
`strings.Split` on `","`, each item `strings.TrimSpace`d, empty items
dropped. -/
def parseServersHeader (s : String) : List String :=
  ((s.splitOn ",").map (fun t => t.trim)).filter (fun t => t ≠ "")

/-- `Refresh`: a no-op when `d.lastUpdate.Add(d.timeout).After(now)`;
otherwise it issues the HTTP GET (whose outcome — transport error, or the
`X-Aurerpc-Servers` header value — is the `httpGetResult` argument), on error
returns that error with the state unchanged, and on success replaces the
server list with the parsed header and stamps `lastUpdate = now`.  Result:
`(new state, returned error, whether an HTTP request was issued)`. -/
def refresh (d : RegistryDiscovery) (now : Int)
    (httpGetResult : Except String String) :
    RegistryDiscovery × Option String × Bool :=
  if d.lastUpdate + d.timeout > now then
    (d, none, false)
  else
    match httpGetResult with
    | Except.error e => (d, some e, true)
    | Except.ok hdr =>
        ({ d with servers := parseServersHeader hdr, lastUpdate := now },
         none, true)

/-! ## Registry service (src/unnamed/part_005) -/

/-- `ServerItem`: an address and its last heartbeat time (`Start`). -/
structure ServerItem where
  addr : String
  start : Int
deriving DecidableEq, Repr

/-- `Registry`: the liveness timeout and the address → `ServerItem` table
(a Go map, modelled as an association list with unique keys maintained by
`putServer`). -/
structure Registry where
  timeout : Int
  services : List (String × ServerItem)
deriving DecidableEq, Repr

/-- `putServer`: upsert — update `Start` if the address is present, insert a
fresh item otherwise. -/
def putServer (r : Registry) (addr : String) (now : Int) : Registry :=
  if r.services.any (fun p => p.1 = addr) then
    { r with services :=
        r.services.map (fun p =>
          if p.1 = addr then (p.1, { p.2 with start := now }) else p) }
  else
    { r with services := r.services ++ [(addr, { addr := addr, start := now })] }

/-- `listAliveServers`: keep exactly the entries with
`time.Since(item.Start) < r.timeout` (strict), dropping the rest from the
table, and return the kept addresses sorted ascending (`sort.Strings`,
modelled by an ascending sort). -/
def listAliveServers (r : Registry) (now : Int) : List String × Registry :=
  let keep := r.services.filter (fun p => now - p.2.start < r.timeout)
  (List.insertionSort (· ≤ ·) (keep.map (fun p => p.1)),
   { r with services := keep })

/-- HTTP request methods as dispatched by the registry's `ServeHTTP`. -/
inductive HttpMethod where
  | get
  | post
  | other
deriving DecidableEq, Repr

/-- The observable response of the registry's `ServeHTTP`: the status code and
the `X-Aurerpc-Servers` response header, when set. -/
structure RegistryResponse where
  status : Nat
  serversHeader : Option String
deriving DecidableEq, Repr

/-- `ServeHTTP`: `GET` lists alive servers (evicting expired entries) and
writes them comma-joined into `X-Aurerpc-Servers`; `POST` with an empty
`X-Aurerpc-Server` request header is `400`, otherwise upserts and returns
`200`; any other method is `405`. -/
def registryServeHTTP (r : Registry) (now : Int) (method : HttpMethod)
    (postAddrHeader : String) : Registry × RegistryResponse :=
  match method with
  | HttpMethod.get =>
      let res := listAliveServers r now
      (res.2, { status := 200,
                serversHeader := some (String.intercalate "," res.1) })
  | HttpMethod.post =>
      if postAddrHeader = "" then
        (r, { status := 400, serversHeader := none })
      else
        (putServer r postAddrHeader now, { status := 200, serversHeader := none })
  | HttpMethod.other =>
      (r, { status := 405, serversHeader := none })

/-! ## Theorems -/

/-- C1: For every `XClient.Broadcast` with a non-nil reply in which at least
one per-address call succeeds, the claim states the caller's reply container
ends up holding the first successful branch's reply and the returned error is
the first error encountered (nil when all succeed).  Evaluated at the failing
input — a single address whose call succeeds with server reply `3`, the reply
container starting (and the reply type's zero value being) `0` — `Broadcast`
returns no error but leaves the caller's reply equal to `0`, not `3`: the
goroutine passes the non-cloned `reply` to `xc.call` and then copies the
never-populated clone over it. -/
theorem C1_broadcast_cloned_reply_bug :
    (broadcastRun (0 : Int) 0 [Except.ok 3]).1 = none
    ∧ (broadcastRun (0 : Int) 0 [Except.ok 3]).2 = 0
    ∧ (broadcastRun (0 : Int) 0 [Except.ok 3]).2 ≠ 3 := by
  refine ⟨rfl, rfl, ?_⟩
  decide

/-- C2: The claim states that after the timer wins the race in
`handleRequest`, the abandoned dispatch task is never blocked forever on its
`called`/`sent` channels.  Evaluated at the failing input — `handle_timeout`
of 1 time unit and a handler taking 2 — the timer branch is taken and the
dispatch task does not terminate, because both channels are created
unbuffered (`make(chan struct{})`, capacity 0) and no receive ever happens
after the timeout branch returns. -/
theorem C2_dispatch_task_blocks_after_timeout :
    timerBranchTaken 1 2 = true
    ∧ calledChanCap = 0
    ∧ sentChanCap = 0
    ∧ dispatchTaskTerminates 1 2 = false := by
  decide

/-- C5: When the caller's context fires before the call completes, `Call`
returns an error whose message includes the context's reason, the pending
entry for the call's sequence is removed, and a response bearing that
sequence arriving later is discarded by the receive loop (the `call == nil`
case reads the body into the null sink) without writing the caller's
reply. -/
theorem C5_cancelled_call_is_discarded (st : ClientState) (callSeq : Nat)
    (reason sm herr : String) (body : Int) :
    (callOnCtxDone st callSeq reason).2 = "rpc client: call failed: " ++ reason
    ∧ (∃ pre post, (callOnCtxDone st callSeq reason).2 = pre ++ reason ++ post)
    ∧ (callOnCtxDone st callSeq reason).1.pending callSeq = none
    ∧ (receiveStep (callOnCtxDone st callSeq reason).1
        { serviceMethod := sm, seq := callSeq, error := herr } body).2
          = ReceiveOutcome.discarded
    ∧ outcomeWritesReply
        (receiveStep (callOnCtxDone st callSeq reason).1
          { serviceMethod := sm, seq := callSeq, error := herr } body).2 = false := by
  refine ⟨rfl, ⟨"rpc client: call failed: ", "", by simp [callOnCtxDone, callFailedMessage]⟩,
    ?_, ?_, ?_⟩
  · simp [callOnCtxDone, removeCall]
  · simp [receiveStep, callOnCtxDone, removeCall]
  · simp [receiveStep, callOnCtxDone, removeCall, outcomeWritesReply]

/-- Helper for C6: from any open client state, a run of `registerCall`s
assigns exactly the consecutive sequence numbers starting at the current
counter, and leaves the counter advanced by the number of calls. -/
theorem runRegisters_assigns :
    ∀ (calls : List PendingCall) (st : ClientState),
      st.closing = false → st.shutdown = false →
      (runRegisters st calls).2 = (List.range' st.seq calls.length).map Except.ok
        ∧ (runRegisters st calls).1.seq = st.seq + calls.length
  | [], st, _, _ => by simp [runRegisters]
  | c :: cs, st, h1, h2 => by
      have ih := runRegisters_assigns cs
        { st with
            pending := fun k =>
              if k = st.seq then some { c with seq := st.seq } else st.pending k,
            seq := st.seq + 1 } h1 h2
      simp only [runRegisters, registerCall, h1, h2, Bool.or_self, Bool.false_eq_true,
        if_false, List.length_cons, List.range'_succ, List.map_cons] at ih ⊢
      exact ⟨by rw [ih.1], by rw [ih.2]; omega⟩

/-- C6: On a fresh client connection the sequence counter starts at 1, and a
run of `registerCall`s assigns exactly the sequence numbers
`1, 2, …, n` in order — strictly increasing, gap-free, and never the
reserved value 0. -/
theorem C6_sequence_numbers (calls : List PendingCall) :
    newClientCodecState.seq = 1
    ∧ (runRegisters newClientCodecState calls).2
        = (List.range' 1 calls.length).map Except.ok
    ∧ ∀ s, Except.ok s ∈ (runRegisters newClientCodecState calls).2 → 1 ≤ s := by
  have h := runRegisters_assigns calls newClientCodecState rfl rfl
  refine ⟨rfl, h.1, ?_⟩
  intro s hs
  rw [h.1] at hs
  simp only [List.mem_map, List.mem_range'] at hs
  obtain ⟨t, ⟨i, hi, ht⟩, he⟩ := hs
  have hts : t = s := by simpa using he
  have ht1 : t = 1 + 1 * i := ht
  omega

/-- C9: The first `Close` on a client sets the `closing` flag and returns the
codec's close result; a second `Close` returns the `ErrShutdown` sentinel
without invoking the codec's close again and leaves the state unchanged. -/
theorem C9_close_idempotent (st : ClientState) (e1 e2 : Option String)
    (h : st.closing = false) :
    (clientClose st e1).1.closing = true
    ∧ (clientClose st e1).2.1 = CloseReturn.codecResult e1
    ∧ (clientClose st e1).2.2 = true
    ∧ (clientClose (clientClose st e1).1 e2).2.1 = CloseReturn.shutdownSentinel
    ∧ (clientClose (clientClose st e1).1 e2).2.2 = false
    ∧ (clientClose (clientClose st e1).1 e2).1 = (clientClose st e1).1 := by
  simp [clientClose, h]

/-- Witness for C9 at a concrete input: the fresh client state, codec close
succeeding the first time. -/
theorem C9_close_idempotent_witness :
    (clientClose newClientCodecState none).1.closing = true
    ∧ (clientClose newClientCodecState none).2.1 = CloseReturn.codecResult none
    ∧ (clientClose newClientCodecState none).2.2 = true
    ∧ (clientClose (clientClose newClientCodecState none).1 (some "x")).2.1
        = CloseReturn.shutdownSentinel
    ∧ (clientClose (clientClose newClientCodecState none).1 (some "x")).2.2 = false
    ∧ (clientClose (clientClose newClientCodecState none).1 (some "x")).1
        = (clientClose newClientCodecState none).1 :=
  C9_close_idempotent newClientCodecState none (some "x") rfl

/-- Counterexample to C3 as stated: the claim's liveness condition is
`now − last ≤ timeout`, but the source keeps an entry only when
`time.Since(item.Start) < r.timeout` (strict).  At `now = 5`, an entry with
`start = 0` and `timeout = 5` satisfies the claim's condition
(`5 − 0 ≤ 5`), yet the listing returns the empty header and evicts the
entry. -/
theorem C3_boundary_counterexample :
    ((5 : Int) - 0 ≤ 5)
    ∧ (listAliveServers
        { timeout := 5, services := [("a", { addr := "a", start := 0 })] } 5).1 = []
    ∧ (registryServeHTTP
        { timeout := 5, services := [("a", { addr := "a", start := 0 })] } 5
        HttpMethod.get "").2.serversHeader = some ""
    ∧ (listAliveServers
        { timeout := 5, services := [("a", { addr := "a", start := 0 })] } 5).2.services
          = [] := by
  refine ⟨by decide, rfl, rfl, rfl⟩

/-- C3 (amended: liveness is strict, `now − last < timeout`): a `GET` on the
registry writes into `X-Aurerpc-Servers` exactly the addresses of entries with
`now − start < timeout`, sorted ascending and comma-joined, and every entry
not satisfying this strict condition is removed from the table as a side
effect of the listing. -/
theorem C3_alive_listing (r : Registry) (now : Int) :
    (∀ a, a ∈ (listAliveServers r now).1 ↔
        ∃ p, p ∈ r.services ∧ p.1 = a ∧ now - p.2.start < r.timeout)
    ∧ List.Sorted (· ≤ ·) (listAliveServers r now).1
    ∧ (∀ p, p ∈ (listAliveServers r now).2.services ↔
        p ∈ r.services ∧ now - p.2.start < r.timeout)
    ∧ (registryServeHTTP r now HttpMethod.get "").2.serversHeader
        = some (String.intercalate "," (listAliveServers r now).1) := by
  refine ⟨?_, ?_, ?_, rfl⟩
  · intro a
    simp only [listAliveServers, List.mem_insertionSort, List.mem_map, List.mem_filter,
      decide_eq_true_eq]
    constructor
    · rintro ⟨p, ⟨hp, hlt⟩, rfl⟩
      exact ⟨p, hp, rfl, hlt⟩
    · rintro ⟨p, hp, rfl, hlt⟩
      exact ⟨p, ⟨hp, hlt⟩, rfl⟩
  · exact List.sorted_insertionSort _ _
  · intro p
    simp [listAliveServers, List.mem_filter]

/-- Helper: membership after a method-map insert comes from the old map or is
the inserted pair. -/
theorem mem_methodMapInsert {acc : List (String × GoMethod)} {k : String}
    {v : GoMethod} {p : String × GoMethod} (h : p ∈ methodMapInsert acc k v) :
    p ∈ acc ∨ p = (k, v) := by
  unfold methodMapInsert at h
  by_cases hc : acc.any (fun q => q.1 = k)
  · rw [if_pos hc] at h
    obtain ⟨q, hq, hqe⟩ := List.mem_map.mp h
    by_cases hqk : q.1 = k
    · right
      rw [if_pos hqk] at hqe
      exact hqe.symm
    · left
      rw [if_neg hqk] at hqe
      exact hqe ▸ hq
  · rw [if_neg hc] at h
    rcases List.mem_append.mp h with h1 | h1
    · exact Or.inl h1
    · right
      simpa using h1

/-- Helper: the inserted pair is a member of the map after the insert. -/
theorem self_mem_methodMapInsert (acc : List (String × GoMethod)) (k : String)
    (v : GoMethod) : (k, v) ∈ methodMapInsert acc k v := by
  unfold methodMapInsert
  by_cases hc : acc.any (fun q => q.1 = k)
  · rw [if_pos hc]
    obtain ⟨q, hq, hqk⟩ := List.any_eq_true.mp hc
    refine List.mem_map.mpr ⟨q, hq, ?_⟩
    rw [if_pos (by simpa using hqk)]
  · rw [if_neg hc]
    simp

/-- Helper: an entry under a different key survives a method-map insert. -/
theorem mem_methodMapInsert_of_ne {acc : List (String × GoMethod)} {k : String}
    {v : GoMethod} {p : String × GoMethod} (hk : p.1 ≠ k) (h : p ∈ acc) :
    p ∈ methodMapInsert acc k v := by
  unfold methodMapInsert
  by_cases hc : acc.any (fun q => q.1 = k)
  · rw [if_pos hc]
    refine List.mem_map.mpr ⟨p, h, ?_⟩
    rw [if_neg hk]
  · rw [if_neg hc]
    exact List.mem_append.mpr (Or.inl h)

/-- Helper: every entry of the built method map comes from the accumulator or
is an eligible method of the processed list, stored under its own name. -/
theorem registerMethodsAux_mem :
    ∀ (ms : List GoMethod) (acc : List (String × GoMethod)) (p : String × GoMethod),
      p ∈ registerMethodsAux acc ms →
      p ∈ acc ∨ (p.1 = p.2.name ∧ methodEligible p.2 = true ∧ p.2 ∈ ms)
  | [], _, p, h => Or.inl h
  | m :: rest, acc, p, h => by
      rcases registerMethodsAux_mem rest _ p h with h1 | ⟨h1, h2, h3⟩
      · by_cases he : methodEligible m
        · rw [if_pos he] at h1
          rcases mem_methodMapInsert h1 with h2 | h2
          · exact Or.inl h2
          · subst h2
            exact Or.inr ⟨rfl, he, List.mem_cons_self _ _⟩
        · rw [if_neg he] at h1
          exact Or.inl h1
      · exact Or.inr ⟨h1, h2, List.mem_cons_of_mem _ h3⟩

/-- Helper: an entry whose key differs from every remaining method name
survives the rest of the registration loop. -/
theorem registerMethodsAux_preserves :
    ∀ (ms : List GoMethod) (acc : List (String × GoMethod)) (p : String × GoMethod),
      p ∈ acc → (∀ m ∈ ms, m.name ≠ p.1) → p ∈ registerMethodsAux acc ms
  | [], _, _, h, _ => h
  | m :: rest, acc, p, h, hn => by
      apply registerMethodsAux_preserves rest _ p _
        (fun q hq => hn q (List.mem_cons_of_mem _ hq))
      by_cases he : methodEligible m
      · rw [if_pos he]
        exact mem_methodMapInsert_of_ne
          (fun hcon => hn m (List.mem_cons_self _ _) hcon.symm) h
      · rw [if_neg he]
        exact h

/-- Helper: under distinct method names, every eligible method of the list
ends up in the built method map under its name. -/
theorem registerMethodsAux_complete :
    ∀ (ms : List GoMethod) (acc : List (String × GoMethod)) (m : GoMethod),
      m ∈ ms → methodEligible m = true →
      (ms.map (fun q => q.name)).Nodup →
      (m.name, m) ∈ registerMethodsAux acc ms
  | [], _, _, h, _, _ => absurd h (List.not_mem_nil _)
  | c :: rest, acc, m, h, he, hnd => by
      rcases List.mem_cons.mp h with rfl | h1
      · simp only [registerMethodsAux, if_pos he]
        apply registerMethodsAux_preserves rest _ _
          (self_mem_methodMapInsert acc m.name m)
        intro q hq hcon
        have : m.name ∈ rest.map (fun q => q.name) :=
          List.mem_map.mpr ⟨q, hq, hcon⟩
        exact (List.nodup_cons.mp (by simpa using hnd)).1 this
      · exact registerMethodsAux_complete rest _ m h1 he
          (List.nodup_cons.mp (by simpa using hnd)).2

/-- Concrete `reflect.Type` facts for Go's built-in `int`: unexported name,
empty package path, not a pointer. -/
def intGoType : GoType := { name := "int", pkgPath := "", isPointer := false }

/-- A method `Sum` with signature shape `func (T) Sum(int, int) error`: two
built-in inputs beyond the receiver, one `error` result — but a value (non
pointer) reply type. -/
def sumValueReplyMethod : GoMethod :=
  { name := "Sum", numIn := 3, numOut := 1, outIsError := true,
    argType := intGoType, replyType := intGoType }

/-- Counterexample to C4 as stated: `registerMethods` retains `Sum` even
though its reply type is not pointer-like, so not every retained method
satisfies the claim's shape (which includes "a pointer-like reply type").
The source never checks the reply type's kind. -/
theorem C4_nonpointer_reply_retained :
    ("Sum", sumValueReplyMethod) ∈ registerMethods [sumValueReplyMethod]
    ∧ claimedMethodShape sumValueReplyMethod = false := by
  constructor
  · simp [registerMethods, registerMethodsAux, methodEligible, methodMapInsert,
      sumValueReplyMethod, intGoType, isExportedOrBuiltinType, isExported]
  · decide

/-- C4 (amended: the retained shape does not include pointer-likeness of the
reply type, which registration never checks): every entry of the method map
built by `registerMethods` is an eligible method of the receiver stored under
its own name — exactly two inputs beyond the receiver, exactly one result of
the error type, argument and reply types exported or built-in — and, the
receiver's method names being distinct, no method satisfying these eligibility
checks is omitted. -/
theorem C4_registered_method_shape (ms : List GoMethod)
    (hnd : (ms.map (fun m => m.name)).Nodup) :
    (∀ p ∈ registerMethods ms,
        p.1 = p.2.name ∧ methodEligible p.2 = true ∧ p.2 ∈ ms)
    ∧ (∀ m ∈ ms, methodEligible m = true → (m.name, m) ∈ registerMethods ms) := by
  constructor
  · intro p hp
    rcases registerMethodsAux_mem ms [] p hp with h | h
    · exact absurd h (List.not_mem_nil _)
    · exact h
  · intro m hm he
    exact registerMethodsAux_complete ms [] m hm he hnd

/-- Witness for C4's amended theorem at a concrete input: the one-method
receiver used in the counterexample, whose name list is trivially
duplicate-free. -/
theorem C4_registered_method_shape_witness :
    (∀ p ∈ registerMethods [sumValueReplyMethod],
        p.1 = p.2.name ∧ methodEligible p.2 = true ∧ p.2 ∈ [sumValueReplyMethod])
    ∧ (∀ m ∈ [sumValueReplyMethod], methodEligible m = true →
        (m.name, m) ∈ registerMethods [sumValueReplyMethod]) :=
  C4_registered_method_shape [sumValueReplyMethod] (by decide)

/-- Helper for C7: on a non-empty list, `k` round-robin draws starting from
cursor `i` return the elements at positions `(i + 0) % n, …, (i + k − 1) % n`. -/
theorem rrRun_getD (servers : List String) (hne : servers ≠ []) :
    ∀ (k i : Nat),
      (rrRun { servers := servers, index := i } k).1
        = (List.range k).map
            (fun j => servers.getD ((i + j) % servers.length) "")
  | 0, i => by simp [rrRun]
  | k + 1, i => by
      have hpos : 0 < servers.length := List.length_pos.mpr hne
      have hlen : ¬ servers.length = 0 := Nat.pos_iff_ne_zero.mp hpos
      have hstep := rrRun_getD servers hne k ((i + 1) % servers.length)
      simp only [rrRun, msdGet, dif_neg hlen] at hstep ⊢
      rw [hstep, List.range_succ_eq_map, List.map_cons, List.map_map]
      refine List.cons_eq_cons.mpr ⟨?_, ?_⟩
      · rw [List.getD_eq_getElem?_getD,
          List.getElem?_eq_getElem (Nat.mod_lt _ hpos)]
        simp [List.get_eq_getElem]
      · apply List.map_congr_left
        intro j _
        simp only [Function.comp]
        congr 1
        rw [Nat.mod_add_mod]
        congr 1
        omega

/-- Helper for C7: reading a non-empty list at positions
`(i + 0) % n, …, (i + n − 1) % n` is exactly the rotation of the list by
`i % n`. -/
theorem map_range_getD_eq_rotate (l : List String) (hne : l ≠ []) (i : Nat) :
    (List.range l.length).map (fun j => l.getD ((i + j) % l.length) "")
      = l.rotate (i % l.length) := by
  have hpos : 0 < l.length := List.length_pos.mpr hne
  apply List.ext_getElem
  · simp [List.length_rotate]
  · intro k h1 h2
    rw [List.getElem_map, List.getElem_range, List.getElem_rotate]
    rw [List.getD_eq_getElem?_getD,
      List.getElem?_eq_getElem (Nat.mod_lt _ hpos)]
    simp only [Option.getD_some]
    congr 1
    rw [Nat.add_mod_mod, Nat.add_comm]

/-- C7: on a `MultiServerDiscovery` holding `N ≥ 1` servers with no update in
between, `N` consecutive `Get(RoundRobinSelect)` calls return the server list
rotated by the cursor's starting offset — hence each address exactly as often
as it occurs in the list (exactly once when addresses are distinct). -/
theorem C7_round_robin_rotation (d : MultiServerDiscovery)
    (h : 1 ≤ d.servers.length) :
    (rrRun d d.servers.length).1 = d.servers.rotate (d.index % d.servers.length)
    ∧ ∀ a, ((rrRun d d.servers.length).1.count a) = d.servers.count a := by
  have hne : d.servers ≠ [] := by
    intro hnil
    rw [hnil] at h
    simp at h
  have hd : d = { servers := d.servers, index := d.index } := rfl
  have hrot : (rrRun d d.servers.length).1
      = d.servers.rotate (d.index % d.servers.length) := by
    rw [hd, rrRun_getD d.servers hne d.servers.length d.index,
      map_range_getD_eq_rotate d.servers hne d.index]
  refine ⟨hrot, fun a => ?_⟩
  rw [hrot]
  exact (List.rotate_perm d.servers (d.index % d.servers.length)).count_eq a

/-- Witness for C7 at a concrete input: three servers, cursor seeded at 5;
the three draws are the rotation by `5 % 3 = 2`. -/
theorem C7_round_robin_rotation_witness :
    (rrRun { servers := ["s1", "s2", "s3"], index := 5 }
        (["s1", "s2", "s3"] : List String).length).1
      = (["s1", "s2", "s3"] : List String).rotate (5 % 3)
    ∧ ∀ a, ((rrRun { servers := ["s1", "s2", "s3"], index := 5 }
        (["s1", "s2", "s3"] : List String).length).1.count a)
          = (["s1", "s2", "s3"] : List String).count a :=
  C7_round_robin_rotation { servers := ["s1", "s2", "s3"], index := 5 } (by decide)

/-- C8: `Refresh` on a registry-backed discovery invoked while
`now − lastUpdate < timeout` issues no HTTP request and leaves the whole
state (server list and `lastUpdate` included) unchanged; invoked at or after
the TTL it issues the GET, and on success replaces the server list with the
`X-Aurerpc-Servers` header comma-split, trimmed, empty items dropped, and
stamps `lastUpdate = now`. -/
theorem C8_refresh_ttl (d : RegistryDiscovery) (now : Int)
    (res : Except String String) :
    (now - d.lastUpdate < d.timeout → refresh d now res = (d, none, false))
    ∧ (d.timeout ≤ now - d.lastUpdate →
        (refresh d now res).2.2 = true
        ∧ ∀ hdr, res = Except.ok hdr →
            refresh d now res
              = ({ d with servers := parseServersHeader hdr, lastUpdate := now },
                 none, true)) := by
  constructor
  · intro h
    have hc : d.lastUpdate + d.timeout > now := by omega
    simp [refresh, hc]
  · intro h
    have hc : ¬ (d.lastUpdate + d.timeout > now) := by omega
    refine ⟨?_, ?_⟩
    · cases res <;> simp [refresh, hc]
    · rintro hdr rfl
      simp [refresh, hc]

/-- A concrete registry-backed discovery state used by the witnesses:
TTL 10, last update at time 0. -/
def refreshExample : RegistryDiscovery :=
  { servers := ["old"], index := 0,
    registry := "http://localhost:9999/_aurerpc_/registry",
    timeout := 10, lastUpdate := 0 }

/-- Witness for C8 at concrete inputs: at `now = 5` (within the TTL) the
state is untouched and no request is issued; at `now = 10` (TTL expired) the
request is issued and the header `"a,,b"` replaces the list with
`["a", "b"]`. -/
theorem C8_refresh_ttl_witness :
    refresh refreshExample 5 (Except.ok "a,,b") = (refreshExample, none, false)
    ∧ (refresh refreshExample 10 (Except.ok "a,,b")).2.2 = true
    ∧ refresh refreshExample 10 (Except.ok "a,,b")
        = ({ refreshExample with
             servers := parseServersHeader "a,,b", lastUpdate := 10 },
           none, true) :=
  ⟨(C8_refresh_ttl refreshExample 5 (Except.ok "a,,b")).1 (by decide),
   ((C8_refresh_ttl refreshExample 10 (Except.ok "a,,b")).2 (by decide)).1,
   ((C8_refresh_ttl refreshExample 10 (Except.ok "a,,b")).2 (by decide)).2
     "a,,b" rfl⟩

/-- C10: when the TTL has expired and the HTTP GET fails, `Refresh` returns
that error and leaves the state — server list and `lastUpdate` — unchanged;
consequently any subsequent `Refresh` (at the same or a later time) issues
the request again immediately instead of waiting out the TTL. -/
theorem C10_refresh_error_frame (d : RegistryDiscovery) (now later : Int)
    (e : String) (res2 : Except String String)
    (h : d.timeout ≤ now - d.lastUpdate) (hl : now ≤ later) :
    refresh d now (Except.error e) = (d, some e, true)
    ∧ (refresh d later res2).2.2 = true := by
  have hc : ¬ (d.lastUpdate + d.timeout > now) := by omega
  have hc2 : ¬ (d.lastUpdate + d.timeout > later) := by omega
  constructor
  · simp [refresh, hc]
  · cases res2 <;> simp [refresh, hc2]

/-- Witness for C10 at concrete inputs: TTL expired at `now = 10`, the GET
fails with `"connection refused"`; the state is returned unchanged and a
retry at `now = 10` again issues the request. -/
theorem C10_refresh_error_frame_witness :
    refresh refreshExample 10 (Except.error "connection refused")
        = (refreshExample, some "connection refused", true)
    ∧ (refresh refreshExample 10
        (Except.error "connection refused")).2.2 = true :=
  C10_refresh_error_frame refreshExample 10 10 "connection refused"
    (Except.error "connection refused") (by decide) (by decide)

end AureRpc
